import Mathlib

/-!
Verification of the cleaning-and-aggregation core of the temperature
dashboard (src/app.py).  The pipeline `preprocess_temperature_data`
(lines 26-46) is embedded as a pure function on lists of records; the
aggregation layer (groupby-mean, sort by value, min/max lookup) is
embedded from its call sites (lines 81-89, 143-145, 405-406).  A small
heap model captures the in-place mutations of the pandas code so that
the frame property (the inputs are not mutated) can be stated.
-/

namespace TempDash

/-- One row of the temperature table, with the columns the pipeline
touches.  `state` and `year` are nullable in the raw data; temperatures
are rationals (exact arithmetic in place of floats). -/
structure RawRecord where
  region : String
  country : String
  state : Option String
  city : String
  year : Option Int
  month : Int
  day : Int
  avgTemperature : ℚ
deriving DecidableEq, Repr

/-- `optOr a b` is `a` unless `a` is null, in which case it is `b`
(the semantics of `dict.get(k, default)` and of `fillna`). -/
def optOr {α : Type} (a b : Option α) : Option α :=
  match a with
  | some v => some v
  | none => b

/-- `cities.set_index("name")["state"].to_dict()` (line 29): lookup in
the dictionary built from the reference rows in order, later duplicate
names overwriting earlier ones, so the last matching row wins. -/
def city_to_state (cities : List (String × String)) (c : String) : Option String :=
  match cities with
  | [] => none
  | (n, s) :: rest =>
    match city_to_state rest c with
    | some s2 => some s2
    | none => if n = c then some s else none

/-- Lines 30-32: `State = city_to_state.get(row["City"], row["State"])`. -/
def resolveState (cities : List (String × String)) (r : RawRecord) : RawRecord :=
  { r with state := optOr (city_to_state cities r.city) r.state }

/-- Line 33: `cleaned_data["State"].fillna("Unknown", inplace=True)`. -/
def fillUnknown (r : RawRecord) : RawRecord :=
  { r with state := some (r.state.getD "Unknown") }

/-- Line 36: `cleaned_data["Day"].replace(0, 1)`. -/
def fixDay (r : RawRecord) : RawRecord :=
  { r with day := if r.day = 0 then 1 else r.day }

/-- Lines 37-39: `year if 1900 <= year <= 2024 else None`, with a null
year comparing false and hence mapped to null. -/
def validYear (y : Option Int) : Option Int :=
  match y with
  | some v => if 1900 ≤ v ∧ v ≤ 2024 then some v else none
  | none => none

/-- First non-null entry of a column, if any. -/
def firstSome {α : Type} : List (Option α) → Option α
  | [] => none
  | some v :: _ => some v
  | none :: rest => firstSome rest

/-- Last non-null entry of a column, if any. -/
def lastSome {α : Type} : List (Option α) → Option α
  | [] => none
  | x :: rest => optOr (lastSome rest) x

/-- Line 40: `fillna(method="ffill")` — each null entry takes the value
carried forward from the nearest preceding non-null entry. -/
def ffill {α : Type} (carry : Option α) : List (Option α) → List (Option α)
  | [] => []
  | some v :: rest => some v :: ffill (some v) rest
  | none :: rest => carry :: ffill carry rest

/-- Line 41: `fillna(method="bfill")` — each null entry takes the value
of the nearest following non-null entry. -/
def bfill {α : Type} : List (Option α) → List (Option α)
  | [] => []
  | x :: rest => optOr x (firstSome rest) :: bfill rest

/-- Lines 37-41 as a column transformation: null the out-of-range
years, forward-fill, then backward-fill. -/
def correctYears (col : List (Option Int)) : List (Option Int) :=
  bfill (ffill none (col.map validYear))

/-- Line 44: `(F - 32) * 5 / 9`. -/
def fahrenheitToCelsius (f : ℚ) : ℚ :=
  (f - 32) * 5 / 9

/-- Line 44 applied to a record's temperature column. -/
def convertTemp (r : RawRecord) : RawRecord :=
  { r with avgTemperature := fahrenheitToCelsius r.avgTemperature }

/-- Write a (possibly null) year back into a record. -/
def setYear (r : RawRecord) (y : Option Int) : RawRecord :=
  { r with year := y }

/-- Lines 26-46: the cleaning pipeline.  State resolution, state
fillna, day fix, year correction (null + ffill + bfill over the year
column), then Fahrenheit-to-Celsius conversion. -/
def preprocess_temperature_data (data : List RawRecord)
    (cities : List (String × String)) : List RawRecord :=
  let s1 := data.map (resolveState cities)
  let s2 := s1.map fillUnknown
  let s3 := s2.map fixDay
  let s4 := List.zipWith setYear s3 (correctYears (s3.map (fun r => r.year)))
  s4.map convertTemp

/-- Arithmetic mean of a list of rationals. -/
def meanQ (xs : List ℚ) : ℚ :=
  xs.sum / (xs.length : ℚ)

/-- `groupby(key)[value].mean()` (lines 143-145, 295, 405-406): one
entry per observed key, in order of first occurrence, carrying the
arithmetic mean of the value column over the rows with that key. -/
def aggregateBy {α κ : Type} [DecidableEq κ] (key : α → κ) (value : α → ℚ)
    (l : List α) : List (κ × ℚ) :=
  ((l.map key).dedup).map
    (fun k => (k, meanQ ((l.filter (fun r => decide (key r = k))).map value)))

/-- Indexing a summary by its key (semantics of `summary[k]` /
`dict[k]` on a groupby result). -/
def lookupKey {κ : Type} [DecidableEq κ] (k : κ) : List (κ × ℚ) → Option ℚ
  | [] => none
  | (k2, v) :: rest => if k2 = k then some v else lookupKey k rest

/-- Insert an entry into a summary sorted ascending by value. -/
def insertByVal {κ : Type} (p : κ × ℚ) : List (κ × ℚ) → List (κ × ℚ)
  | [] => [p]
  | q :: t => if p.2 ≤ q.2 then p :: q :: t else q :: insertByVal p t

/-- `sort_values()`: sort a summary ascending by its value column. -/
def sortByVal {κ : Type} : List (κ × ℚ) → List (κ × ℚ)
  | [] => []
  | p :: t => insertByVal p (sortByVal t)

/-- Lines 405-406: regional summary, groupby-mean on Region followed by
`sort_values()` (ascending sort by mean value). -/
def regional_avg_temp (cleaned : List RawRecord) : List (String × ℚ) :=
  sortByVal
    (aggregateBy (fun r => r.region) (fun r => r.avgTemperature) cleaned)

/-- The Min/Max selector of the bar-chart annotation (lines 81-86). -/
inductive Mode where
  | min : Mode
  | max : Mode
deriving DecidableEq, Repr

/-- `better m a b` holds when value `a` is strictly preferable to the
incumbent `b` under mode `m` (strict, so ties keep the incumbent). -/
def better (m : Mode) (a b : ℚ) : Bool :=
  match m with
  | Mode.min => decide (a < b)
  | Mode.max => decide (b < a)

/-- Linear scan keeping the first-encountered extreme entry. -/
def pickFrom {κ : Type} (m : Mode) (best : κ × ℚ) : List (κ × ℚ) → κ × ℚ
  | [] => best
  | q :: rest => pickFrom m (if better m q.2 best.2 then q else best) rest

/-- Lines 81-89: `(summary.idxmin(), summary.min())` respectively
`(summary.idxmax(), summary.max())` — the first entry of the summary
attaining the extreme value, paired with that value. -/
def extreme {κ : Type} (m : Mode) : List (κ × ℚ) → Option (κ × ℚ)
  | [] => none
  | p :: rest => some (pickFrom m p rest)

/-- A Python object reachable from the pipeline: a temperature table or
a city-reference table. -/
inductive PyObj where
  | tempT : List RawRecord → PyObj
  | cityT : List (String × String) → PyObj
deriving DecidableEq

/-- The temperature table held by an object (dummy for a reference
table). -/
def getTempT : PyObj → List RawRecord
  | PyObj.tempT t => t
  | PyObj.cityT _ => []

/-- The city-reference table held by an object (dummy for a temperature
table). -/
def getCityT : PyObj → List (String × String)
  | PyObj.cityT t => t
  | PyObj.tempT _ => []

/-- A heap of Python objects addressed by reference. -/
def Heap : Type :=
  Nat → PyObj

/-- Mutate the temperature table at `ref` in place by `f`. -/
def mutateTemp (h : Heap) (ref : Nat) (f : List RawRecord → List RawRecord) : Heap :=
  Function.update h ref (PyObj.tempT (f (getTempT (h ref))))

/-- Lines 26-46 with the mutations explicit: `cleaned_data =
data.copy()` allocates a fresh object at `cleanedRef`, and every
subsequent statement mutates that object only; `data` and `cities` are
only read.  Returns the final heap and the reference to the result. -/
def preprocessHeap (h : Heap) (dataRef citiesRef cleanedRef : Nat) : Heap × Nat :=
  let h1 := Function.update h cleanedRef (PyObj.tempT (getTempT (h dataRef)))
  let dict := getCityT (h1 citiesRef)
  let h2 := mutateTemp h1 cleanedRef (fun t => t.map (resolveState dict))
  let h3 := mutateTemp h2 cleanedRef (fun t => t.map fillUnknown)
  let h4 := mutateTemp h3 cleanedRef (fun t => t.map fixDay)
  let h5 := mutateTemp h4 cleanedRef
    (fun t => List.zipWith setYear t ((t.map (fun r => r.year)).map validYear))
  let h6 := mutateTemp h5 cleanedRef
    (fun t => List.zipWith setYear t (ffill none (t.map (fun r => r.year))))
  let h7 := mutateTemp h6 cleanedRef
    (fun t => List.zipWith setYear t (bfill (t.map (fun r => r.year))))
  let h8 := mutateTemp h7 cleanedRef (fun t => t.map convertTemp)
  (h8, cleanedRef)

/-! ### Basic lemmas about `optOr` and the fill primitives -/

theorem optOr_none_right {α : Type} (a : Option α) : optOr a none = a := by
  cases a <;> rfl

theorem optOr_assoc {α : Type} (a b c : Option α) :
    optOr (optOr a b) c = optOr a (optOr b c) := by
  cases a <;> rfl

theorem optOr_eq_none_iff {α : Type} (a b : Option α) :
    optOr a b = none ↔ a = none ∧ b = none := by
  cases a <;> simp [optOr]

theorem length_ffill {α : Type} (c : Option α) (l : List (Option α)) :
    (ffill c l).length = l.length := by
  induction l generalizing c with
  | nil => rfl
  | cons x t ih => cases x <;> simp [ffill, ih]

theorem length_bfill {α : Type} (l : List (Option α)) :
    (bfill l).length = l.length := by
  induction l with
  | nil => rfl
  | cons x t ih => simp [bfill, ih]

theorem ffill_getElem {α : Type} (c : Option α) (l : List (Option α)) (i : Nat)
    (h : i < l.length) (h2 : i < (ffill c l).length) :
    (ffill c l)[i] = optOr (lastSome (l.take (i + 1))) c := by
  induction l generalizing c i with
  | nil => simp at h
  | cons x t ih =>
    cases i with
    | zero =>
      cases x <;> simp [ffill, lastSome, optOr]
    | succ j =>
      have hj : j < t.length := by simpa using h
      cases x with
      | none =>
        have hj2 : j < (ffill c t).length := by rw [length_ffill]; exact hj
        simp only [ffill, List.getElem_cons_succ, List.take_succ_cons, lastSome]
        rw [ih c j hj hj2, optOr_assoc]
        rfl
      | some v =>
        have hj2 : j < (ffill (some v) t).length := by rw [length_ffill]; exact hj
        simp only [ffill, List.getElem_cons_succ, List.take_succ_cons, lastSome]
        rw [ih (some v) j hj hj2, optOr_assoc]
        rfl

theorem bfill_getElem {α : Type} (l : List (Option α)) (i : Nat)
    (h : i < l.length) (h2 : i < (bfill l).length) :
    (bfill l)[i] = optOr l[i] (firstSome (l.drop (i + 1))) := by
  induction l generalizing i with
  | nil => simp at h
  | cons x t ih =>
    cases i with
    | zero => simp [bfill]
    | succ j =>
      have hj : j < t.length := by simpa using h
      have hj2 : j < (bfill t).length := by rw [length_bfill]; exact hj
      simp only [bfill, List.getElem_cons_succ, List.drop_succ_cons]
      exact ih j hj hj2

theorem lastSome_eq_none_iff {α : Type} (l : List (Option α)) :
    lastSome l = none ↔ ∀ x ∈ l, x = none := by
  induction l with
  | nil => simp [lastSome]
  | cons x t ih =>
    simp only [lastSome, optOr_eq_none_iff, ih, List.mem_cons]
    constructor
    · rintro ⟨ht, hx⟩ y (rfl | hy)
      · exact hx
      · exact ht y hy
    · intro hall
      exact ⟨fun y hy => hall y (Or.inr hy), hall x (Or.inl rfl)⟩

theorem firstSome_eq_none_iff {α : Type} (l : List (Option α)) :
    firstSome l = none ↔ ∀ x ∈ l, x = none := by
  induction l with
  | nil => simp [firstSome]
  | cons x t ih =>
    cases x with
    | none =>
      simp only [firstSome, ih, List.mem_cons]
      constructor
      · rintro hall y (rfl | hy)
        · rfl
        · exact hall y hy
      · intro hall y hy
        exact hall y (Or.inr hy)
    | some v => simp [firstSome]

theorem lastSome_mem {α : Type} {l : List (Option α)} {v : α}
    (h : lastSome l = some v) : some v ∈ l := by
  induction l with
  | nil => simp [lastSome] at h
  | cons x t ih =>
    simp only [lastSome] at h
    cases hl : lastSome t with
    | some w =>
      rw [hl] at h
      simp only [optOr] at h
      exact List.mem_cons_of_mem x (ih (hl.trans h))
    | none =>
      rw [hl] at h
      simp only [optOr] at h
      rw [h]
      exact List.mem_cons_self _ _

theorem firstSome_mem {α : Type} {l : List (Option α)} {v : α}
    (h : firstSome l = some v) : some v ∈ l := by
  induction l with
  | nil => simp [firstSome] at h
  | cons x t ih =>
    cases x with
    | none => exact List.mem_cons_of_mem _ (ih h)
    | some w =>
      simp only [firstSome, Option.some.injEq] at h
      rw [h]
      exact List.mem_cons_self _ _

theorem firstSome_ffill_none {α : Type} (l : List (Option α)) :
    firstSome (ffill none l) = firstSome l := by
  induction l with
  | nil => rfl
  | cons x t ih => cases x <;> simp [ffill, firstSome, ih]

theorem ffill_drop_of_none {α : Type} (l : List (Option α)) (k : Nat)
    (hk : ∀ x ∈ l.take k, x = none) :
    (ffill none l).drop k = ffill none (l.drop k) := by
  induction l generalizing k with
  | nil => simp [ffill]
  | cons x t ih =>
    cases k with
    | zero => rfl
    | succ j =>
      have hx : x = none := hk x (by simp)
      subst hx
      simp only [ffill, List.drop_succ_cons]
      exact ih j (fun y hy => hk y (by simp [List.take_succ_cons]; right; exact hy))

theorem fill_getElem {α : Type} (l : List (Option α)) (i : Nat)
    (h : i < l.length) (h2 : i < (bfill (ffill none l)).length) :
    (bfill (ffill none l))[i] =
      optOr (lastSome (l.take (i + 1))) (firstSome (l.drop (i + 1))) := by
  have hf : i < (ffill none l).length := by rw [length_ffill]; exact h
  rw [bfill_getElem (ffill none l) i hf h2,
    ffill_getElem none l i h hf, optOr_none_right]
  cases hl : lastSome (l.take (i + 1)) with
  | some v => rfl
  | none =>
    have hall : ∀ x ∈ l.take (i + 1), x = none :=
      (lastSome_eq_none_iff _).mp hl
    rw [optOr, optOr, ffill_drop_of_none l (i + 1) hall, firstSome_ffill_none]

/-! ### Claim theorems about year correction -/

/-- C3: year correction nulls every out-of-range year, fills each null
with the nearest preceding valid year, and fills what remains at the
start from the nearest following valid year; the sequence
`[null, 2005, null, null, 2010]` fills to
`[2005, 2005, 2005, 2005, 2010]`. -/
theorem claim_C3 :
    (∀ (col : List (Option Int)) (i : Nat) (h : i < col.length)
      (h2 : i < (correctYears col).length),
      (correctYears col)[i] =
        optOr (lastSome ((col.map validYear).take (i + 1)))
          (firstSome ((col.map validYear).drop (i + 1)))) ∧
    correctYears [none, some 2005, none, none, some 2010] =
      [some 2005, some 2005, some 2005, some 2005, some 2010] := by
  constructor
  · intro col i h h2
    exact fill_getElem (col.map validYear) i (by simpa using h) h2
  · rfl

/-- Witness for C3 at a concrete column and index. -/
theorem claim_C3_witness :
    (correctYears [some 1700, some 1950]).get ⟨0, by decide⟩ =
      optOr (lastSome (([some 1700, some 1950].map validYear).take 1))
        (firstSome (([some 1700, some 1950].map validYear).drop 1)) :=
  claim_C3.1 [some 1700, some 1950] 0 (by decide) (by decide)

/-! ### Shape of the cleaning pipeline -/

theorem length_correctYears (col : List (Option Int)) :
    (correctYears col).length = col.length := by
  simp [correctYears, length_bfill, length_ffill]

theorem year_col_steps (c : List (String × String)) (d : List RawRecord) :
    ((((d.map (resolveState c)).map fillUnknown).map fixDay).map
      (fun r => r.year)) = d.map (fun r => r.year) := by
  simp only [List.map_map]
  rfl

theorem preprocess_length (d : List RawRecord) (c : List (String × String)) :
    (preprocess_temperature_data d c).length = d.length := by
  simp [preprocess_temperature_data, year_col_steps, length_correctYears]

theorem preprocess_getElem (d : List RawRecord) (c : List (String × String))
    (i : Nat) (h : i < d.length)
    (h3 : i < (correctYears (d.map (fun r => r.year))).length)
    (h2 : i < (preprocess_temperature_data d c).length) :
    (preprocess_temperature_data d c)[i] =
      convertTemp (setYear (fixDay (fillUnknown (resolveState c d[i])))
        ((correctYears (d.map (fun r => r.year)))[i])) := by
  simp only [preprocess_temperature_data, year_col_steps] at h2 ⊢
  simp [List.getElem_map, List.getElem_zipWith]

/-- C9: the pipeline drops no row and reorders none: the output has
exactly the input's rows, and the Region, Country, City and Month
columns are untouched. -/
theorem claim_C9 :
    ∀ (d : List RawRecord) (c : List (String × String)),
      (preprocess_temperature_data d c).length = d.length ∧
      (preprocess_temperature_data d c).map
          (fun r => (r.region, r.country, r.city, r.month)) =
        d.map (fun r => (r.region, r.country, r.city, r.month)) := by
  intro d c
  refine ⟨preprocess_length d c, ?_⟩
  apply List.ext_get
  · simp [preprocess_length]
  · intro i h1 h2
    have hd : i < d.length := by
      have := preprocess_length d c
      simp at h1
      omega
    have h3 : i < (correctYears (d.map (fun r => r.year))).length := by
      rw [length_correctYears]
      simpa using hd
    have hp : i < (preprocess_temperature_data d c).length := by
      rw [preprocess_length]; exact hd
    simp only [List.get_eq_getElem, List.getElem_map]
    rw [preprocess_getElem d c i hd h3 hp]
    rfl

/-- C5: the temperature column of the cleaned table is exactly
`(F - 32) * 5 / 9` of the raw column, elementwise and unconditionally,
and the conversion round-trips through `c * 9 / 5 + 32`. -/
theorem claim_C5 :
    ∀ (d : List RawRecord) (c : List (String × String)),
      ((preprocess_temperature_data d c).map (fun r => r.avgTemperature) =
        d.map (fun r => (r.avgTemperature - 32) * 5 / 9)) ∧
      (∀ f : ℚ, fahrenheitToCelsius f = (f - 32) * 5 / 9 ∧
        fahrenheitToCelsius f * 9 / 5 + 32 = f) := by
  intro d c
  constructor
  · apply List.ext_get
    · simp [preprocess_length]
    · intro i h1 h2
      have hd : i < d.length := by
        have := preprocess_length d c
        simp at h1
        omega
      have h3 : i < (correctYears (d.map (fun r => r.year))).length := by
        rw [length_correctYears]; simpa using hd
      have hp : i < (preprocess_temperature_data d c).length := by
        rw [preprocess_length]; exact hd
      simp only [List.get_eq_getElem, List.getElem_map]
      rw [preprocess_getElem d c i hd h3 hp]
      rfl
  · intro f
    refine ⟨rfl, ?_⟩
    unfold fahrenheitToCelsius
    ring

/-- C2: state resolution takes the reference table's state whenever the
record's city is a key of the reference (overwriting even a non-null
state), writes `"Unknown"` when the city is absent and the state is
null, and keeps the original state when the city is absent and the
state is non-null. -/
theorem claim_C2 (d : List RawRecord) (c : List (String × String)) (i : Nat)
    (h : i < d.length) (h2 : i < (preprocess_temperature_data d c).length) :
    (∀ v, city_to_state c (d[i]).city = some v →
      ((preprocess_temperature_data d c)[i]).state = some v) ∧
    (city_to_state c (d[i]).city = none → (d[i]).state = none →
      ((preprocess_temperature_data d c)[i]).state = some "Unknown") ∧
    (∀ s, city_to_state c (d[i]).city = none → (d[i]).state = some s →
      ((preprocess_temperature_data d c)[i]).state = some s) := by
  have h3 : i < (correctYears (d.map (fun r => r.year))).length := by
    rw [length_correctYears]; simpa using h
  rw [preprocess_getElem d c i h h3 h2]
  refine ⟨?_, ?_, ?_⟩
  · intro v hv
    simp [convertTemp, setYear, fixDay, fillUnknown, resolveState, hv, optOr]
  · intro hv hs
    simp [convertTemp, setYear, fixDay, fillUnknown, resolveState, hv, hs, optOr]
  · intro s hv hs
    simp [convertTemp, setYear, fixDay, fillUnknown, resolveState, hv, hs, optOr]

/-- Witness for C2: a reference hit overwrites a non-null state. -/
theorem claim_C2_witness :
    ((preprocess_temperature_data
      [⟨"Asia", "PK", some "Punjab", "Karachi", some 2000, 5, 3, 50⟩]
      [("Karachi", "Sindh")])[0]).state = some "Sindh" :=
  (claim_C2 [⟨"Asia", "PK", some "Punjab", "Karachi", some 2000, 5, 3, 50⟩]
    [("Karachi", "Sindh")] 0 (by decide) (by decide)).1 "Sindh" (by decide)

theorem validYear_range {o : Option Int} {v : Int} (h : validYear o = some v) :
    1900 ≤ v ∧ v ≤ 2024 := by
  cases o with
  | none => simp [validYear] at h
  | some w =>
    simp only [validYear] at h
    split at h
    · cases h
      assumption
    · cases h

theorem fill_mem_of_some {α : Type} {l : List (Option α)} {i : Nat} {v : α}
    (h : i < l.length) (h2 : i < (bfill (ffill none l)).length)
    (hv : (bfill (ffill none l))[i] = some v) : some v ∈ l := by
  rw [fill_getElem l i h h2] at hv
  cases hl : lastSome (l.take (i + 1)) with
  | some w =>
    rw [hl] at hv
    simp only [optOr, Option.some.injEq] at hv
    subst hv
    exact List.mem_of_mem_take (lastSome_mem hl)
  | none =>
    rw [hl] at hv
    simp only [optOr] at hv
    exact List.mem_of_mem_drop (firstSome_mem hv)

theorem fill_ne_none {α : Type} {l : List (Option α)} {i : Nat} {v : α}
    (h : i < l.length) (h2 : i < (bfill (ffill none l)).length)
    (hx : some v ∈ l) : (bfill (ffill none l))[i] ≠ none := by
  rw [fill_getElem l i h h2]
  intro hcon
  rw [optOr_eq_none_iff] at hcon
  have h1 := (lastSome_eq_none_iff _).mp hcon.1
  have h2 := (firstSome_eq_none_iff _).mp hcon.2
  rcases (List.mem_append.mp
    (by rw [List.take_append_drop (i + 1) l]; exact hx)) with hmem | hmem
  · exact Option.some_ne_none v (h1 _ hmem)
  · exact Option.some_ne_none v (h2 _ hmem)

/-- C1: when every raw day lies in `{0} ∪ [1,31]` and at least one raw
year lies in `[1900,2024]`, every cleaned record has a non-null state,
a day in `[1,31]` and a year in `[1900,2024]`. -/
theorem claim_C1 (d : List RawRecord) (c : List (String × String))
    (hday : ∀ r ∈ d, r.day = 0 ∨ (1 ≤ r.day ∧ r.day ≤ 31))
    (hyear : ∃ r ∈ d, ∃ y, r.year = some y ∧ 1900 ≤ y ∧ y ≤ 2024) :
    ∀ r ∈ preprocess_temperature_data d c,
      (∃ s, r.state = some s) ∧ (1 ≤ r.day ∧ r.day ≤ 31) ∧
      (∃ y, r.year = some y ∧ 1900 ≤ y ∧ y ≤ 2024) := by
  intro r hr
  obtain ⟨⟨i, hi⟩, hget⟩ := List.mem_iff_get.mp hr
  have hd : i < d.length := by
    have := preprocess_length d c
    omega
  have h3 : i < (correctYears (d.map (fun r => r.year))).length := by
    rw [length_correctYears]; simpa using hd
  rw [← hget, List.get_eq_getElem, preprocess_getElem d c i hd h3 hi]
  refine ⟨⟨_, rfl⟩, ?_, ?_⟩
  · have hmem : d[i] ∈ d := List.getElem_mem hd
    rcases hday d[i] hmem with h0 | hgood
    · simp [convertTemp, setYear, fixDay, fillUnknown, resolveState, h0]
    · have hne : (d[i]).day ≠ 0 := by omega
      simp [convertTemp, setYear, fixDay, fillUnknown, resolveState, if_neg hne]
      omega
  · show ∃ y, (correctYears (d.map (fun r => r.year)))[i] = some y ∧
      1900 ≤ y ∧ y ≤ 2024
    obtain ⟨r0, hr0, y0, hy0, hy0r⟩ := hyear
    have hm : some y0 ∈ (d.map (fun r => r.year)).map validYear := by
      simp only [List.map_map, List.mem_map]
      refine ⟨r0, hr0, ?_⟩
      simp [validYear, hy0, hy0r.1, hy0r.2]
    have hlen : i < ((d.map (fun r => r.year)).map validYear).length := by
      simpa using hd
    have hlen2 :
        i < (bfill (ffill none ((d.map (fun r => r.year)).map validYear))).length := by
      rw [length_bfill, length_ffill]; exact hlen
    have hne := fill_ne_none hlen hlen2 hm
    cases hv : (correctYears (d.map (fun r => r.year)))[i] with
    | none => exact absurd hv hne
    | some v =>
      have hmem := fill_mem_of_some hlen hlen2 hv
      obtain ⟨o, _, ho⟩ := by
        simpa only [List.map_map, List.mem_map] using hmem
      have := validYear_range ho
      exact ⟨v, rfl, this⟩

/-- Witness for C1 at a one-row table with a zero day, a null state and
a valid year. -/
theorem claim_C1_witness :
    (∃ s, (⟨"Asia", "PK", some "Unknown", "Karachi", some 2000, 5, 1, 10⟩ :
        RawRecord).state = some s) ∧
    (1 ≤ (⟨"Asia", "PK", some "Unknown", "Karachi", some 2000, 5, 1, 10⟩ :
        RawRecord).day ∧
      (⟨"Asia", "PK", some "Unknown", "Karachi", some 2000, 5, 1, 10⟩ :
        RawRecord).day ≤ 31) ∧
    (∃ y, (⟨"Asia", "PK", some "Unknown", "Karachi", some 2000, 5, 1, 10⟩ :
        RawRecord).year = some y ∧ 1900 ≤ y ∧ y ≤ 2024) :=
  claim_C1 [⟨"Asia", "PK", none, "Karachi", some 2000, 5, 0, 50⟩] []
    (by decide) (by decide)
    ⟨"Asia", "PK", some "Unknown", "Karachi", some 2000, 5, 1, 10⟩
    (by norm_num [preprocess_temperature_data, resolveState, fillUnknown,
      fixDay, setYear, convertTemp, fahrenheitToCelsius, correctYears,
      validYear, ffill, bfill, firstSome, lastSome, optOr, city_to_state])

/-! ### Behaviour of a second pipeline run -/

theorem ffill_of_no_none {α : Type} (c : Option α) {l : List (Option α)}
    (h : ∀ x ∈ l, x ≠ none) : ffill c l = l := by
  induction l generalizing c with
  | nil => rfl
  | cons x t ih =>
    cases x with
    | none => exact absurd rfl (h none (List.mem_cons_self _ _))
    | some v =>
      simp [ffill, ih (some v) (fun y hy => h y (List.mem_cons_of_mem _ hy))]

theorem bfill_of_no_none {α : Type} {l : List (Option α)}
    (h : ∀ x ∈ l, x ≠ none) : bfill l = l := by
  induction l with
  | nil => rfl
  | cons x t ih =>
    cases x with
    | none => exact absurd rfl (h none (List.mem_cons_self _ _))
    | some v =>
      simp [bfill, optOr, ih (fun y hy => h y (List.mem_cons_of_mem _ hy))]

theorem ffill_none_all_none {α : Type} {l : List (Option α)}
    (h : ∀ x ∈ l, x = none) : ffill none l = l := by
  induction l with
  | nil => rfl
  | cons x t ih =>
    have hx := h x (List.mem_cons_self _ _)
    subst hx
    simp [ffill, ih (fun y hy => h y (List.mem_cons_of_mem _ hy))]

theorem bfill_all_none {α : Type} {l : List (Option α)}
    (h : ∀ x ∈ l, x = none) : bfill l = l := by
  induction l with
  | nil => rfl
  | cons x t ih =>
    have hx := h x (List.mem_cons_self _ _)
    subst hx
    have ht : firstSome t = none :=
      (firstSome_eq_none_iff t).mpr (fun y hy => h y (List.mem_cons_of_mem _ hy))
    simp [bfill, optOr, ht, ih (fun y hy => h y (List.mem_cons_of_mem _ hy))]

theorem validYear_fix_of_mem {col : List (Option Int)} {v : Int}
    (h : some v ∈ col.map validYear) : validYear (some v) = some v := by
  obtain ⟨o, _, ho⟩ := List.mem_map.mp h
  have hr := validYear_range ho
  simp [validYear, hr.1, hr.2]

theorem correctYears_map_validYear (col : List (Option Int)) :
    (correctYears col).map validYear = correctYears col := by
  apply List.ext_get
  · simp
  · intro i h1 h2
    have hm : i < (col.map validYear).length := by
      rw [List.length_map]
      rw [length_correctYears] at h2
      exact h2
    simp only [List.get_eq_getElem, List.getElem_map]
    cases hv : (correctYears col)[i] with
    | none => rfl
    | some v =>
      exact validYear_fix_of_mem (fill_mem_of_some hm h2 hv)

theorem correctYears_idem (col : List (Option Int)) :
    correctYears (correctYears col) = correctYears col := by
  show bfill (ffill none ((correctYears col).map validYear)) = correctYears col
  rw [correctYears_map_validYear]
  by_cases hall : ∀ x ∈ col.map validYear, x = none
  · have hz : correctYears col = col.map validYear := by
      show bfill (ffill none (col.map validYear)) = col.map validYear
      rw [ffill_none_all_none hall, bfill_all_none hall]
    rw [hz, ffill_none_all_none hall, bfill_all_none hall]
  · push_neg at hall
    obtain ⟨x, hx, hxne⟩ := hall
    cases x with
    | none => exact absurd rfl hxne
    | some v =>
      have hnn : ∀ y ∈ correctYears col, y ≠ none := by
        intro y hy
        obtain ⟨⟨i, hi⟩, hget⟩ := List.mem_iff_get.mp hy
        have hm : i < (col.map validYear).length := by
          rw [List.length_map]
          have := length_correctYears col
          omega
        rw [← hget, List.get_eq_getElem]
        intro hcon
        exact fill_ne_none hm hi hx hcon
      rw [ffill_of_no_none none hnn, bfill_of_no_none hnn]

theorem preprocess_year_col (d : List RawRecord) (c : List (String × String)) :
    (preprocess_temperature_data d c).map (fun r => r.year) =
      correctYears (d.map (fun r => r.year)) := by
  apply List.ext_get
  · simp [preprocess_length, length_correctYears]
  · intro i h1 h2
    have hd : i < d.length := by
      have := preprocess_length d c
      simp at h1
      omega
    have h3 : i < (correctYears (d.map (fun r => r.year))).length := by
      rw [length_correctYears]; simpa using hd
    have hp : i < (preprocess_temperature_data d c).length := by
      rw [preprocess_length]; exact hd
    simp only [List.get_eq_getElem, List.getElem_map]
    rw [preprocess_getElem d c i hd h3 hp]
    rfl

theorem fillUnknown_of_some {r : RawRecord} {w : String}
    (h : r.state = some w) : fillUnknown r = r := by
  unfold fillUnknown
  rw [h]
  show { r with state := some w } = r
  rw [← h]

theorem fixDay_of_ne {r : RawRecord} (h : r.day ≠ 0) : fixDay r = r := by
  unfold fixDay
  rw [if_neg h]

theorem resolveState_of_hit {c : List (String × String)} {r : RawRecord}
    {v : String} (hcs : city_to_state c r.city = some v)
    (hst : r.state = some v) : resolveState c r = r := by
  unfold resolveState
  rw [hcs]
  show { r with state := some v } = r
  rw [← hst]

theorem resolveState_of_miss {c : List (String × String)} {r : RawRecord}
    (hcs : city_to_state c r.city = none) : resolveState c r = r := by
  unfold resolveState
  rw [hcs]
  show { r with state := r.state } = r
  rfl

/-- C4 counterexample: on a one-row table at 50 °F the first run yields
10 °C, and a second run converts again, so the pipeline is not
idempotent. -/
theorem claim_C4_counterexample :
    preprocess_temperature_data (preprocess_temperature_data
        [⟨"Asia", "PK", none, "Karachi", some 2000, 5, 0, 50⟩] []) [] ≠
      preprocess_temperature_data
        [⟨"Asia", "PK", none, "Karachi", some 2000, 5, 0, 50⟩] [] := by
  norm_num [preprocess_temperature_data, resolveState, fillUnknown, fixDay,
    setYear, convertTemp, fahrenheitToCelsius, correctYears, validYear,
    ffill, bfill, firstSome, lastSome, optOr, city_to_state,
    RawRecord.mk.injEq]

/-- C4 (amended): a second run of the pipeline on its own output leaves
the State, Day and Year columns unchanged and applies the
Fahrenheit-to-Celsius conversion once more to the temperature column:
it equals mapping `convertTemp` over the first output. -/
theorem claim_C4 :
    ∀ (d : List RawRecord) (c : List (String × String)),
      preprocess_temperature_data (preprocess_temperature_data d c) c =
        (preprocess_temperature_data d c).map convertTemp := by
  intro d c
  apply List.ext_get
  · simp [preprocess_length]
  · intro i h1 h2
    have hd : i < d.length := by
      have ha := preprocess_length (preprocess_temperature_data d c) c
      have hb := preprocess_length d c
      omega
    have ho : i < (preprocess_temperature_data d c).length := by
      rw [preprocess_length]; exact hd
    have h3d : i < (correctYears (d.map (fun r => r.year))).length := by
      rw [length_correctYears]; simpa using hd
    have h3o : i < (correctYears ((preprocess_temperature_data d c).map
        (fun r => r.year))).length := by
      rw [length_correctYears]; simpa using ho
    simp only [List.get_eq_getElem, List.getElem_map]
    rw [preprocess_getElem (preprocess_temperature_data d c) c i ho h3o h1]
    have hoi := preprocess_getElem d c i hd h3d ho
    have hstate : ((preprocess_temperature_data d c)[i]).state =
        some ((optOr (city_to_state c ((d[i]).city)) ((d[i]).state)).getD
          "Unknown") := by
      rw [hoi]
      rfl
    have hcity : ((preprocess_temperature_data d c)[i]).city = (d[i]).city := by
      rw [hoi]
      rfl
    have hday : ((preprocess_temperature_data d c)[i]).day ≠ 0 := by
      rw [hoi]
      show (if (d[i]).day = 0 then 1 else (d[i]).day) ≠ 0
      split
      · omega
      · assumption
    have hyear : ((preprocess_temperature_data d c)[i]).year =
        (correctYears (d.map (fun r => r.year)))[i] := by
      rw [hoi]
      rfl
    have hres : resolveState c ((preprocess_temperature_data d c)[i]) =
        (preprocess_temperature_data d c)[i] := by
      cases hcs : city_to_state c ((d[i]).city) with
      | some v =>
        refine resolveState_of_hit (v := v) ?_ ?_
        · rw [hcity]; exact hcs
        · rw [hstate, hcs]
          rfl
      | none =>
        refine resolveState_of_miss ?_
        rw [hcity]; exact hcs
    have hfill : fillUnknown ((preprocess_temperature_data d c)[i]) =
        (preprocess_temperature_data d c)[i] :=
      fillUnknown_of_some hstate
    have hfd : fixDay ((preprocess_temperature_data d c)[i]) =
        (preprocess_temperature_data d c)[i] :=
      fixDay_of_ne hday
    have hyears : correctYears ((preprocess_temperature_data d c).map
        (fun r => r.year)) = correctYears (d.map (fun r => r.year)) := by
      rw [preprocess_year_col, correctYears_idem]
    rw [hres, hfill, hfd]
    simp only [hyears]
    rw [← hyear]
    rfl

/-! ### Aggregation layer -/

theorem lookupKey_map_self {κ : Type} [DecidableEq κ] (k : κ) (ks : List κ)
    (f : κ → ℚ) :
    lookupKey k (ks.map (fun k2 => (k2, f k2))) =
      if k ∈ ks then some (f k) else none := by
  induction ks with
  | nil => rfl
  | cons k2 t ih =>
    simp only [List.map_cons, lookupKey]
    by_cases hk : k2 = k
    · subst hk
      simp
    · rw [if_neg hk, ih]
      by_cases hmem : k ∈ t
      · simp [List.mem_cons, hmem]
      · simp [List.mem_cons, hmem, Ne.symm hk]

/-- C6: aggregation maps each observed key to the arithmetic mean of
the value column over exactly the records carrying that key, produces
no entry for an unobserved key, and on the three-record Region example
yields `{Asia: 15, Europe: 5}`. -/
theorem claim_C6 :
    (∀ {α κ : Type} [DecidableEq κ] (key : α → κ) (value : α → ℚ)
      (l : List α) (k : κ),
      (k ∉ l.map key →
        lookupKey k (aggregateBy key value l) = none) ∧
      (k ∈ l.map key →
        lookupKey k (aggregateBy key value l) =
          some (meanQ ((l.filter (fun r => decide (key r = k))).map value)))) ∧
    aggregateBy (fun r : RawRecord => r.region) (fun r => r.avgTemperature)
      [⟨"Asia", "", none, "", none, 1, 1, 10⟩,
       ⟨"Asia", "", none, "", none, 1, 1, 20⟩,
       ⟨"Europe", "", none, "", none, 1, 1, 5⟩] =
      [("Asia", 15), ("Europe", 5)] := by
  constructor
  · intro α κ _ key value l k
    constructor
    · intro hk
      unfold aggregateBy
      rw [lookupKey_map_self]
      rw [if_neg (fun hc => hk (List.mem_dedup.mp hc))]
    · intro hk
      unfold aggregateBy
      rw [lookupKey_map_self]
      rw [if_pos (List.mem_dedup.mpr hk)]
  · unfold aggregateBy
    rw [show (([⟨"Asia", "", none, "", none, 1, 1, 10⟩,
        ⟨"Asia", "", none, "", none, 1, 1, 20⟩,
        ⟨"Europe", "", none, "", none, 1, 1, 5⟩] : List RawRecord).map
          (fun r => r.region)).dedup = ["Asia", "Europe"] from by decide]
    simp only [List.map_cons, List.map_nil]
    rw [show ([⟨"Asia", "", none, "", none, 1, 1, 10⟩,
        ⟨"Asia", "", none, "", none, 1, 1, 20⟩,
        ⟨"Europe", "", none, "", none, 1, 1, 5⟩] : List RawRecord).filter
          (fun r => decide (r.region = "Asia")) =
        [⟨"Asia", "", none, "", none, 1, 1, 10⟩,
         ⟨"Asia", "", none, "", none, 1, 1, 20⟩] from by decide,
      show ([⟨"Asia", "", none, "", none, 1, 1, 10⟩,
        ⟨"Asia", "", none, "", none, 1, 1, 20⟩,
        ⟨"Europe", "", none, "", none, 1, 1, 5⟩] : List RawRecord).filter
          (fun r => decide (r.region = "Europe")) =
        [⟨"Europe", "", none, "", none, 1, 1, 5⟩] from by decide]
    norm_num [meanQ]

/-- Witness for C6: an unobserved key yields no entry. -/
theorem claim_C6_witness :
    lookupKey "Africa"
      (aggregateBy (fun r : RawRecord => r.region) (fun r => r.avgTemperature)
        [⟨"Asia", "", none, "", none, 1, 1, 10⟩]) = none :=
  (claim_C6.1 (fun r : RawRecord => r.region) (fun r => r.avgTemperature)
    [⟨"Asia", "", none, "", none, 1, 1, 10⟩] "Africa").1 (by decide)

/-! ### Sortedness of the regional summary -/

theorem mem_insertByVal {κ : Type} (p b : κ × ℚ) (l : List (κ × ℚ)) :
    b ∈ insertByVal p l ↔ b = p ∨ b ∈ l := by
  induction l with
  | nil => simp [insertByVal]
  | cons q t ih =>
    simp only [insertByVal]
    by_cases hpq : p.2 ≤ q.2
    · rw [if_pos hpq]
      simp [List.mem_cons]
    · rw [if_neg hpq]
      simp only [List.mem_cons, ih]
      tauto

theorem sorted_insertByVal {κ : Type} (p : κ × ℚ) (l : List (κ × ℚ))
    (h : List.Pairwise (fun a b : κ × ℚ => a.2 ≤ b.2) l) :
    List.Pairwise (fun a b : κ × ℚ => a.2 ≤ b.2) (insertByVal p l) := by
  induction l with
  | nil => simp [insertByVal]
  | cons q t ih =>
    rcases List.pairwise_cons.mp h with ⟨hq, ht⟩
    simp only [insertByVal]
    by_cases hpq : p.2 ≤ q.2
    · rw [if_pos hpq]
      refine List.pairwise_cons.mpr ⟨?_, h⟩
      intro b hb
      rcases List.mem_cons.mp hb with rfl | hbt
      · exact hpq
      · exact le_trans hpq (hq b hbt)
    · rw [if_neg hpq]
      refine List.pairwise_cons.mpr ⟨?_, ih ht⟩
      intro b hb
      rcases (mem_insertByVal p b t).mp hb with rfl | hbt
      · exact le_of_not_le hpq
      · exact hq b hbt

theorem sorted_sortByVal {κ : Type} (l : List (κ × ℚ)) :
    List.Pairwise (fun a b : κ × ℚ => a.2 ≤ b.2) (sortByVal l) := by
  induction l with
  | nil => simp [sortByVal]
  | cons p t ih => exact sorted_insertByVal p (sortByVal t) ih

/-- C8: the regional summary handed to rendering is sorted ascending by
mean value: every entry's mean is at most the mean of every later
entry. -/
theorem claim_C8 (cleaned : List RawRecord) (i j : Nat)
    (hi : i < (regional_avg_temp cleaned).length)
    (hj : j < (regional_avg_temp cleaned).length) (hij : i ≤ j) :
    ((regional_avg_temp cleaned).get ⟨i, hi⟩).2 ≤
      ((regional_avg_temp cleaned).get ⟨j, hj⟩).2 := by
  rcases Nat.lt_or_ge i j with hlt | hge
  · have hs := sorted_sortByVal
      (aggregateBy (fun r : RawRecord => r.region) (fun r => r.avgTemperature)
        cleaned)
    exact (List.pairwise_iff_get.mp hs) ⟨i, hi⟩ ⟨j, hj⟩ hlt
  · have : i = j := le_antisymm hij hge
    subst this
    exact le_refl _

/-- Witness for C8 at a one-region table and indices 0 ≤ 0. -/
theorem claim_C8_witness :
    ((regional_avg_temp
        [⟨"Asia", "PK", some "Sindh", "Karachi", some 2000, 5, 3, 10⟩]).get
      ⟨0, by decide⟩).2 ≤
    ((regional_avg_temp
        [⟨"Asia", "PK", some "Sindh", "Karachi", some 2000, 5, 3, 10⟩]).get
      ⟨0, by decide⟩).2 :=
  claim_C8 [⟨"Asia", "PK", some "Sindh", "Karachi", some 2000, 5, 3, 10⟩]
    0 0 (by decide) (by decide) (by decide)

/-! ### Extreme lookup -/

theorem better_irrefl (m : Mode) (a : ℚ) : better m a a = false := by
  cases m <;> simp [better]

theorem better_P1 {m : Mode} {q b r : ℚ} (h1 : better m q b = true)
    (h2 : better m q r = false) : better m r b = true := by
  cases m <;>
    simp only [better, decide_eq_true_eq, decide_eq_false_iff_not, not_lt]
      at h1 h2 ⊢ <;> linarith

theorem better_P2 {m : Mode} {r b q : ℚ} (h1 : better m r b = true)
    (h2 : better m q b = false) : better m r q = true := by
  cases m <;>
    simp only [better, decide_eq_true_eq, decide_eq_false_iff_not, not_lt]
      at h1 h2 ⊢ <;> linarith

theorem better_P3 {m : Mode} {q b r : ℚ} (h1 : better m q b = true)
    (h2 : better m q r = false) : better m b r = false := by
  cases m <;>
    simp only [better, decide_eq_true_eq, decide_eq_false_iff_not, not_lt]
      at h1 h2 ⊢ <;> linarith

theorem better_P4 {m : Mode} {q b r : ℚ} (h1 : better m q b = false)
    (h2 : better m b r = false) : better m q r = false := by
  cases m <;>
    simp only [better, decide_eq_true_eq, decide_eq_false_iff_not, not_lt]
      at h1 h2 ⊢ <;> linarith

theorem pickFrom_spec {κ : Type} (m : Mode) (t : List (κ × ℚ)) (best : κ × ℚ) :
    ∃ i, ∃ hi : i < (best :: t).length,
      pickFrom m best t = (best :: t).get ⟨i, hi⟩ ∧
      (∀ j, ∀ hj : j < (best :: t).length,
        better m ((best :: t).get ⟨j, hj⟩).2 (pickFrom m best t).2 = false) ∧
      (∀ j, ∀ hj : j < (best :: t).length, j < i →
        better m (pickFrom m best t).2 ((best :: t).get ⟨j, hj⟩).2 = true) := by
  induction t generalizing best with
  | nil =>
    refine ⟨0, by simp, rfl, ?_, ?_⟩
    · intro j hj
      have hj0 : j = 0 := by simpa using hj
      subst hj0
      exact better_irrefl m best.2
    · intro j hj hlt
      exact absurd hlt (Nat.not_lt_zero j)
  | cons q t ih =>
    have hunfold : pickFrom m best (q :: t) =
        pickFrom m (if better m q.2 best.2 then q else best) t := rfl
    by_cases hqb : better m q.2 best.2 = true
    · rw [if_pos hqb] at hunfold
      obtain ⟨i', hi', heq, hopt, hfirst⟩ := ih q
      have hoptq : better m q.2 (pickFrom m q t).2 = false := by
        simpa using hopt 0 (by simp)
      refine ⟨i' + 1, by simpa using hi', ?_, ?_, ?_⟩
      · rw [hunfold, heq]
        simp [List.get_eq_getElem, List.getElem_cons_succ]
      · intro j hj
        rw [hunfold]
        cases j with
        | zero =>
          simp only [List.get_eq_getElem, List.getElem_cons_zero]
          exact better_P3 hqb hoptq
        | succ j' =>
          have hj' : j' < (q :: t).length := by simpa using hj
          have := hopt j' hj'
          simp only [List.get_eq_getElem, List.getElem_cons_succ] at this ⊢
          exact this
      · intro j hj hlt
        rw [hunfold]
        cases j with
        | zero =>
          simp only [List.get_eq_getElem, List.getElem_cons_zero]
          exact better_P1 hqb hoptq
        | succ j' =>
          have hj' : j' < (q :: t).length := by simpa using hj
          have := hfirst j' hj' (by omega)
          simp only [List.get_eq_getElem, List.getElem_cons_succ] at this ⊢
          exact this
    · have hqb' : better m q.2 best.2 = false := by simpa using hqb
      rw [if_neg hqb] at hunfold
      obtain ⟨i', hi', heq, hopt, hfirst⟩ := ih best
      have hoptb : better m best.2 (pickFrom m best t).2 = false := by
        simpa using hopt 0 (by simp)
      cases i' with
      | zero =>
        refine ⟨0, by simp, ?_, ?_, ?_⟩
        · rw [hunfold, heq]
          simp [List.get_eq_getElem, List.getElem_cons_zero]
        · intro j hj
          rw [hunfold]
          cases j with
          | zero =>
            simp only [List.get_eq_getElem, List.getElem_cons_zero]
            exact hoptb
          | succ j' =>
            cases j' with
            | zero =>
              simp only [List.get_eq_getElem, List.getElem_cons_succ,
                List.getElem_cons_zero]
              exact better_P4 hqb' hoptb
            | succ j'' =>
              have hj'' : j'' + 1 < (best :: t).length := by simpa using hj
              have := hopt (j'' + 1) hj''
              simp only [List.get_eq_getElem, List.getElem_cons_succ] at this ⊢
              exact this
        · intro j hj hlt
          exact absurd hlt (Nat.not_lt_zero j)
      | succ k =>
        have hk : k + 1 < (best :: t).length := hi'
        refine ⟨k + 2, by simpa using hk, ?_, ?_, ?_⟩
        · rw [hunfold, heq]
          simp only [List.get_eq_getElem, List.getElem_cons_succ]
        · intro j hj
          rw [hunfold]
          cases j with
          | zero =>
            simp only [List.get_eq_getElem, List.getElem_cons_zero]
            exact hoptb
          | succ j' =>
            cases j' with
            | zero =>
              simp only [List.get_eq_getElem, List.getElem_cons_succ,
                List.getElem_cons_zero]
              exact better_P4 hqb' hoptb
            | succ j'' =>
              have hj'' : j'' + 1 < (best :: t).length := by simpa using hj
              have := hopt (j'' + 1) hj''
              simp only [List.get_eq_getElem, List.getElem_cons_succ] at this ⊢
              exact this
        · intro j hj hlt
          rw [hunfold]
          have hrb : better m (pickFrom m best t).2 best.2 = true := by
            simpa using hfirst 0 (by simp) (Nat.succ_pos k)
          cases j with
          | zero =>
            simp only [List.get_eq_getElem, List.getElem_cons_zero]
            exact hrb
          | succ j' =>
            cases j' with
            | zero =>
              simp only [List.get_eq_getElem, List.getElem_cons_succ,
                List.getElem_cons_zero]
              exact better_P2 hrb hqb'
            | succ j'' =>
              have hj'' : j'' + 1 < (best :: t).length := by simpa using hj
              have := hfirst (j'' + 1) hj'' (by omega)
              simp only [List.get_eq_getElem, List.getElem_cons_succ] at this ⊢
              exact this

/-- C7: extreme lookup linearly scans the summary and returns the entry
holding the minimum (resp. maximum) mean together with its key, ties
broken by the first-encountered entry in iteration order; on
`{Asia: 15, Europe: 5}` with mode MAX it returns `("Asia", 15)`. -/
theorem claim_C7 :
    (∀ {κ : Type} (l : List (κ × ℚ)), l ≠ [] →
      (∃ i, ∃ hi : i < l.length,
        extreme Mode.min l = some (l.get ⟨i, hi⟩) ∧
        (∀ j, ∀ hj : j < l.length,
          (l.get ⟨i, hi⟩).2 ≤ (l.get ⟨j, hj⟩).2) ∧
        (∀ j, ∀ hj : j < l.length, j < i →
          (l.get ⟨i, hi⟩).2 < (l.get ⟨j, hj⟩).2)) ∧
      (∃ i, ∃ hi : i < l.length,
        extreme Mode.max l = some (l.get ⟨i, hi⟩) ∧
        (∀ j, ∀ hj : j < l.length,
          (l.get ⟨j, hj⟩).2 ≤ (l.get ⟨i, hi⟩).2) ∧
        (∀ j, ∀ hj : j < l.length, j < i →
          (l.get ⟨j, hj⟩).2 < (l.get ⟨i, hi⟩).2))) ∧
    extreme Mode.max [("Asia", (15 : ℚ)), ("Europe", 5)] =
      some ("Asia", 15) := by
  constructor
  · intro κ l hl
    match l with
    | [] => exact absurd rfl hl
    | p :: rest =>
      constructor
      · obtain ⟨i, hi, heq, hopt, hfirst⟩ := pickFrom_spec Mode.min rest p
        refine ⟨i, hi, by rw [show extreme Mode.min (p :: rest) =
          some (pickFrom Mode.min p rest) from rfl, heq], ?_, ?_⟩
        · intro j hj
          have := hopt j hj
          simp only [better, decide_eq_false_iff_not, not_lt] at this
          rw [heq] at this
          exact this
        · intro j hj hlt
          have := hfirst j hj hlt
          simp only [better, decide_eq_true_eq] at this
          rw [heq] at this
          exact this
      · obtain ⟨i, hi, heq, hopt, hfirst⟩ := pickFrom_spec Mode.max rest p
        refine ⟨i, hi, by rw [show extreme Mode.max (p :: rest) =
          some (pickFrom Mode.max p rest) from rfl, heq], ?_, ?_⟩
        · intro j hj
          have := hopt j hj
          simp only [better, decide_eq_false_iff_not, not_lt] at this
          rw [heq] at this
          exact this
        · intro j hj hlt
          have := hfirst j hj hlt
          simp only [better, decide_eq_true_eq] at this
          rw [heq] at this
          exact this
  · norm_num [extreme, pickFrom, better]

/-- Witness for C7 at a concrete two-entry summary. -/
theorem claim_C7_witness :
    ∃ i, ∃ hi : i < ([("Asia", (15 : ℚ)), ("Europe", 5)]).length,
      extreme Mode.min [("Asia", (15 : ℚ)), ("Europe", 5)] =
        some (([("Asia", (15 : ℚ)), ("Europe", 5)]).get ⟨i, hi⟩) ∧
      (∀ j, ∀ hj : j < ([("Asia", (15 : ℚ)), ("Europe", 5)]).length,
        (([("Asia", (15 : ℚ)), ("Europe", 5)]).get ⟨i, hi⟩).2 ≤
          (([("Asia", (15 : ℚ)), ("Europe", 5)]).get ⟨j, hj⟩).2) ∧
      (∀ j, ∀ hj : j < ([("Asia", (15 : ℚ)), ("Europe", 5)]).length, j < i →
        (([("Asia", (15 : ℚ)), ("Europe", 5)]).get ⟨i, hi⟩).2 <
          (([("Asia", (15 : ℚ)), ("Europe", 5)]).get ⟨j, hj⟩).2) :=
  (claim_C7.1 [("Asia", (15 : ℚ)), ("Europe", 5)] (by decide)).1

/-! ### Frame property of the pipeline -/

/-- C10: the pipeline mutates only the freshly allocated copy: after
the call, the objects at the `data` and `cities` references are exactly
what they were before. -/
theorem claim_C10 (h : Heap) (dataRef citiesRef cleanedRef : Nat)
    (hd : cleanedRef ≠ dataRef) (hc : cleanedRef ≠ citiesRef) :
    ((preprocessHeap h dataRef citiesRef cleanedRef).1) dataRef = h dataRef ∧
    ((preprocessHeap h dataRef citiesRef cleanedRef).1) citiesRef =
      h citiesRef := by
  constructor <;>
    simp [preprocessHeap, mutateTemp, Function.update_apply,
      Ne.symm hd, Ne.symm hc]

/-- Witness for C10 at a concrete heap and distinct references. -/
theorem claim_C10_witness :
    ((preprocessHeap (fun _ => PyObj.tempT []) 0 1 2).1) 0 =
      (fun _ : Nat => PyObj.tempT []) 0 ∧
    ((preprocessHeap (fun _ => PyObj.tempT []) 0 1 2).1) 1 =
      (fun _ : Nat => PyObj.tempT []) 1 :=
  claim_C10 (fun _ => PyObj.tempT []) 0 1 2 (by decide) (by decide)

end TempDash
